import Mathlib

/-! # css-modules-flow-types-cli: the build pipeline of `src/cli.js`

A shallow embedding of `packages/css-modules-flow-types-cli/src/cli.js` and
`src/fs.js`.

* The collaborators that live outside the two source files (Node's `path`,
  `fs.writeFile`, `globby.sync`, `node-sass`, `temp.path`, `chalk`, and the
  repository's own `./converter`) are the fields of `Env`; every general theorem
  is stated for an arbitrary `Env`.
* The observable state (file contents, the two console streams, the watch
  subscriptions) is the record `World`, passed explicitly.
* `handleFile` is an `async` function: it runs synchronously up to its first
  `await` and is then resumed once per awaited promise.  `Stage` is the set of
  its suspension points, `resume` runs one continuation, `handleFile` runs an
  invocation alone to its end, and `runSchedule` interleaves the continuations of
  many invocations in an arbitrary order, as the event loop may.
-/

namespace CssModulesFlowTypes

/-! ## JavaScript string helpers -/

/-- Replace the first occurrence of `pat` by `rep`; the list has no occurrence: unchanged. -/
def replaceFirst (pat rep : List Char) : List Char → List Char
  | [] => if pat.isEmpty then rep else []
  | c :: cs =>
    if pat.isPrefixOf (c :: cs) then rep ++ (c :: cs).drop pat.length
    else c :: replaceFirst pat rep cs

/-- JavaScript `s.replace(pat, rep)` for a string pattern `pat`: only the first
occurrence is replaced (`rep` is taken literally; the only call site passes `''`). -/
def jsReplace (s pat rep : String) : String :=
  ⟨replaceFirst pat.data rep.data s.data⟩

/-- JavaScript `s.startsWith(pre)`. -/
def jsStartsWith (s pre : String) : Bool :=
  pre.data.isPrefixOf s.data

/-- Truthiness of a value that is a string or `null`: `null` and `''` are falsy. -/
def truthy : Option String → Bool
  | none => false
  | some s => s != ""

/-- String conversion of a value that is a string or `null`, as done by `+` and by
template literals. -/
def jsString : Option String → String
  | none => "null"
  | some s => s

/-- String conversion of a value that is an array of strings or `null`
(`Array.prototype.toString` joins with a comma). -/
def jsArrayString : Option (List String) → String
  | none => "null"
  | some l => ",".intercalate l

/-! ## Collaborators and state -/

/-- File contents by path; `none` is "no such file". -/
abbrev Files := String → Option String

/-- The file system after `path` has been given the content `content`. -/
def Files.write (files : Files) (path content : String) : Files :=
  fun q => if q = path then some content else files q

/-- Everything `cli.js` calls that is not defined in `cli.js` or `fs.js`. -/
structure Env where
  /-- Node `process.cwd()`. -/
  cwd : String
  /-- Node `path.resolve(p)`. -/
  resolve : String → String
  /-- Node `path.join(...parts)`. -/
  join : List String → String
  /-- Node `path.relative(from, to)`. -/
  relative : String → String → String
  /-- The list `globby.sync(pattern)` returns on the current file system. -/
  glob : Files → String → List String
  /-- The outcome of `sass.render` for `file`: the text of `val.css`, or `err` as a string. -/
  renderSass : String → Except String String
  /-- The sequence of names generated by `temp.path(\x7b suffix: '.css' \x7d)`. -/
  tempPath : Nat → String
  /-- The outcome of `converter.convert(file)` (module `./converter`) on the current
  file system: the declaration text, or the rejection reason as a string. -/
  convert : Files → String → Except String String
  /-- The `err` that `fs.writeFile` passes to its callback for a path, if any. -/
  writeError : String → Option String
  /-- The colouring `chalk.green`. -/
  green : String → String
  /-- The colouring `chalk.red`. -/
  red : String → String

/-- The observable state of the process. -/
structure World where
  /-- The file system. -/
  files : Files
  /-- Lines written by `console.info`. -/
  stdout : List String
  /-- Lines written by `console.error`. -/
  stderr : List String
  /-- How many names `temp.path` has generated so far. -/
  temps : Nat
  /-- How many times `cli.showHelp()` was called. -/
  helpShown : Nat
  /-- Event subscriptions of the watcher, as (pattern, event name). -/
  watches : List (String × String)
  /-- Record of the completed `fs.writeFile` calls, as (path, content), oldest first. -/
  writes : List (String × String)
  /-- Record of the calls of `detectDanlingFlowFiles`, as (filesPattern, cssFiles). -/
  detectCalls : List (String × List String)

/-- Flags parsed by `meow`; `watch` and `silent` are declared boolean. -/
structure Flags where
  watch : Bool
  silent : Bool
  extension : Option String

/-- The parsed command line: `cli.input` and `cli.flags`. -/
structure Cli where
  input : Option (List String)
  flags : Flags

/-! ## fs.js -/

/-- The function `writeFile(outputFilePath, content)` of `fs.js`, once its promise has settled:
rejected with `err`, or resolved with `outputFilePath` after the file was written. -/
def writeFile (env : Env) (outputFilePath content : String) (w : World) :
    Except String (String × World) :=
  match env.writeError outputFilePath with
  | some err => .error err
  | none =>
    .ok (outputFilePath,
      { w with files := w.files.write outputFilePath content,
               writes := w.writes ++ [(outputFilePath, content)] })

/-! ## cli.js: detectDanlingFlowFiles -/

/-- The local `danglingFlowFiles`: `flowFiles.filter(f => !cssFilesSet.has(f.replace('.flow', '')))`. -/
def danglingFlowFiles (flowFiles cssFiles : List String) : List String :=
  flowFiles.filter (fun f => !(cssFiles.contains (jsReplace f ".flow" "")))

/-- The function `detectDanlingFlowFiles(filesPattern, cssFiles)`; the call is also recorded
in `detectCalls`. -/
def detectDanlingFlowFiles (env : Env) (filesPattern : String) (cssFiles : List String)
    (w : World) : World :=
  let flowFiles := env.glob w.files (filesPattern ++ ".flow")
  let dangling := danglingFlowFiles flowFiles cssFiles
  let w1 := { w with detectCalls := w.detectCalls ++ [(filesPattern, cssFiles)] }
  if dangling.length > 0 then
    { w1 with stderr := w1.stderr
        ++ [env.red ("Detected " ++ toString dangling.length
              ++ " dangling .flow file(s), that can be removed:")]
        ++ dangling.map (fun f => env.red ("- " ++ f)) }
  else w1

/-! ## cli.js: handleFile -/

/-- Suspension points of one `handleFile` invocation, with the locals that are live
there, and the two ways its promise can settle. -/
inductive Stage where
  /-- At `await renderSass(\x7b file: scssFilePath \x7d)`. -/
  | awaitRender (scssFilePath : String)
  /-- At `await writeFile(tempCssFile, cssContents, 'utf8')`. -/
  | awaitTempWrite (scssFilePath tempCssFile cssContents : String)
  /-- At `await converter.convert(tempCssFile)`. -/
  | awaitConvert (scssFilePath tempCssFile : String)
  /-- At `await writeFile(flowTypingsFile, flowTypings, 'utf8')`. -/
  | awaitFlowWrite (scssFilePath flowTypingsFile flowTypings : String)
  /-- The promise returned by `handleFile` is fulfilled. -/
  | resolved
  /-- The promise returned by `handleFile` is rejected. -/
  | rejected (reason : String)
  deriving DecidableEq, Repr

/-- The `catch (reason)` block of `handleFile`. -/
def catchBlock (env : Env) (reason : String) (w : World) : World :=
  { w with stderr := w.stderr ++ [env.red ("[Error] " ++ reason)] }

/-- The `if (!silent) ...` block at the end of the `try` block. -/
def reportWrote (env : Env) (silent : Bool) (flowTypingsFile : String) (w : World) : World :=
  if !silent then
    let outputFileRelative := env.relative env.cwd flowTypingsFile
    let outputFileRelative :=
      if !(jsStartsWith outputFileRelative "../") then "./" ++ outputFileRelative
      else outputFileRelative
    { w with stdout := w.stdout ++ [env.green ("[Wrote] " ++ outputFileRelative)] }
  else w

/-- The synchronous start of `handleFile(scssFilePath)`: up to the first `await`. -/
def handleFileStart (env : Env) (scssFilePath : String) : Stage :=
  .awaitRender (env.resolve scssFilePath)

/-- One continuation of `handleFile`: the awaited promise settles and the body runs to
the next `await` (or to its end); a rejection goes to the `catch` block. -/
def resume (env : Env) (silent : Bool) (w : World) : Stage → World × Stage
  | .awaitRender scssFilePath =>
    match env.renderSass scssFilePath with
    | .error reason => (catchBlock env reason w, .resolved)
    | .ok cssContents =>
      let tempCssFile := env.tempPath w.temps
      ({ w with temps := w.temps + 1 }, .awaitTempWrite scssFilePath tempCssFile cssContents)
  | .awaitTempWrite scssFilePath tempCssFile cssContents =>
    match writeFile env tempCssFile cssContents w with
    | .error reason => (catchBlock env reason w, .resolved)
    | .ok (_, w1) => (w1, .awaitConvert scssFilePath tempCssFile)
  | .awaitConvert scssFilePath tempCssFile =>
    match env.convert w.files tempCssFile with
    | .error reason => (catchBlock env reason w, .resolved)
    | .ok flowTypings =>
      let flowTypingsFile := env.join [scssFilePath ++ ".flow"]
      (w, .awaitFlowWrite scssFilePath flowTypingsFile flowTypings)
  | .awaitFlowWrite _ flowTypingsFile flowTypings =>
    match writeFile env flowTypingsFile flowTypings w with
    | .error reason => (catchBlock env reason w, .resolved)
    | .ok (_, w1) => (reportWrote env silent flowTypingsFile w1, .resolved)
  | .resolved => (w, .resolved)
  | .rejected reason => (w, .rejected reason)

/-- Run `n` continuations of one invocation with nothing else in between. -/
def resumeN (env : Env) (silent : Bool) : Nat → World × Stage → World × Stage
  | 0, s => s
  | n + 1, s => resumeN env silent n (resume env silent s.1 s.2)

/-- One whole invocation `handleFile(scssFilePath)` run alone: the start and the four
continuations that the four `await`s allow. -/
def handleFile (env : Env) (silent : Bool) (scssFilePath : String) (w : World) : World × Stage :=
  resumeN env silent 4 (w, handleFileStart env scssFilePath)

/-! ## The event loop: interleaved invocations -/

/-- Resume the `i`-th pending invocation (no such invocation: nothing happens). -/
def resumeAt (env : Env) (silent : Bool) (i : Nat) (s : World × List Stage) :
    World × List Stage :=
  match s.2[i]? with
  | none => s
  | some st => ((resume env silent s.1 st).1, s.2.set i (resume env silent s.1 st).2)

/-- Run the continuations in the order given by `schedule`, a list of invocation indices. -/
def runSchedule (env : Env) (silent : Bool) : List Nat → World × List Stage → World × List Stage
  | [], s => s
  | i :: schedule, s => runSchedule env silent schedule (resumeAt env silent i s)

/-! ## cli.js: main -/

/-- The local `extension`: `cli.flags.extension || 'css'`. -/
def extension (cli : Cli) : String :=
  if truthy cli.flags.extension then jsString cli.flags.extension else "css"

/-- The local `filesList`: `cli.input.length > 1 ? cli.input : null`. -/
def filesList (input : List String) : Option (List String) :=
  if input.length > 1 then some input else none

/-- The local `filePath`: `cli.input.length === 1 ? cli.input[0] : null`. -/
def filePath (input : List String) : Option String :=
  if input.length = 1 then input[0]? else none

/-- The local `filesPattern`: `filePath && path.join(filePath, '**/*.' + extension)`
(a falsy `filePath` is the value of the `&&`). -/
def filesPattern (env : Env) (cli : Cli) (input : List String) : Option String :=
  if truthy (filePath input) then
    some (env.join [jsString (filePath input), "**/*." ++ extension cli])
  else filePath input

/-- The local `cssFiles`: `filesList ? filesList : globby.sync(filesPattern)`. -/
def cssFiles (env : Env) (cli : Cli) (input : List String) (w : World) : List String :=
  match filesList input with
  | some l => l
  | none => env.glob w.files (jsString (filesPattern env cli input))

/-- The call `gaze(filesPattern, function ...)`: the callback subscribes `handleFile` to
the events `changed` and `added`. -/
def gaze (pattern : String) (w : World) : World :=
  { w with watches := w.watches ++ [(pattern, "changed"), (pattern, "added")] }

/-- The synchronous run of `main()`: the world it leaves and the `handleFile` invocations
it has started (each suspended at its first `await`), in call order. -/
def main (env : Env) (cli : Cli) (w : World) : World × List Stage :=
  match cli.input with
  | none => ({ w with helpShown := w.helpShown + 1 }, [])
  | some input =>
    if input.length = 0 then ({ w with helpShown := w.helpShown + 1 }, [])
    else if !cli.flags.watch then
      let files := cssFiles env cli input w
      let started := files.map (handleFileStart env)
      if !(filesList input).isSome then
        (detectDanlingFlowFiles env (jsString (filesPattern env cli input)) files w, started)
      else (w, started)
    else if !truthy (filePath input) then
      ({ w with stderr := w.stderr
          ++ [env.red ("Watch mode requires a single path... Not "
                ++ jsArrayString (filesList input))] }, [])
    else (gaze (jsString (filesPattern env cli input)) w, [])

/-! ## Bookkeeping for interleaved invocations -/

/-- The ephemeral file a suspended invocation is about to write or to read. -/
def Stage.tempCssFile : Stage → Option String
  | .awaitTempWrite _ tempCssFile _ => some tempCssFile
  | .awaitConvert _ tempCssFile => some tempCssFile
  | _ => none

/-- The number of continuations an invocation has left when none of its steps fails. -/
def Stage.rank : Stage → Nat
  | .awaitRender _ => 4
  | .awaitTempWrite _ _ _ => 3
  | .awaitConvert _ _ => 2
  | .awaitFlowWrite _ _ _ => 1
  | .resolved => 0
  | .rejected _ => 0

/-- What holds of the invocation for the resolved source `file` at each of its stages,
when its compiled CSS is `css` and its declaration text is `typings`. -/
def OnTrack (env : Env) (file css typings : String) (w : World) : Stage → Prop
  | .awaitRender scssFilePath => scssFilePath = file
  | .awaitTempWrite scssFilePath _ cssContents => scssFilePath = file ∧ cssContents = css
  | .awaitConvert scssFilePath tempCssFile =>
    scssFilePath = file ∧ w.files tempCssFile = some css
  | .awaitFlowWrite _ flowTypingsFile flowTypings =>
    flowTypingsFile = env.join [file ++ ".flow"] ∧ flowTypings = typings
  | .resolved =>
    (env.join [file ++ ".flow"], typings) ∈ w.writes
      ∧ w.files (env.join [file ++ ".flow"]) ≠ none
  | .rejected _ => False

/-- The invariant of a run in which the `i`-th invocation is on track: every ephemeral
file in use was named by `temp.path`, none is shared between the `i`-th invocation and
another one, and every pending artifact write goes to a `.flow` path. -/
structure Isolated (env : Env) (i : Nat) (file css typings : String)
    (s : World × List Stage) : Prop where
  onTrack : ∃ st, s.2[i]? = some st ∧ OnTrack env file css typings s.1 st
  named : ∀ (j : Nat) (st : Stage) (p : String), s.2[j]? = some st →
    st.tempCssFile = some p → ∃ k, k < s.1.temps ∧ p = env.tempPath k
  apart : ∀ (j : Nat) (st sti : Stage) (p : String), j ≠ i → s.2[j]? = some st →
    s.2[i]? = some sti → st.tempCssFile = some p → sti.tempCssFile ≠ some p
  flowNamed : ∀ (j : Nat) (a f t : String), s.2[j]? = some (Stage.awaitFlowWrite a f t) →
    ∃ x, f = env.join [x ++ ".flow"]

/-! ## The specification's reading of the Dangling Set -/

/-- Spec wording ("artifact path with the suffix stripped"): drop a trailing `.flow`. -/
def stripFlowSuffix (f : String) : String :=
  if ".flow".data.isSuffixOf f.data then ⟨f.data.take (f.data.length - 5)⟩ else f

/-- Spec wording (Dangling Set): the artifacts whose suffix-stripped path is not a live
source. -/
def danglingSet (flowFiles cssFiles : List String) : List String :=
  flowFiles.filter (fun f => !(cssFiles.contains (stripFlowSuffix f)))

/-! ## A concrete set of collaborators

Working directory `/w`; the tree holds the sources `src/a.css` and
`src/my.flowers/b.css`, their artifacts, and the leftover `src/legacy.css.flow`.
The functions below agree with Node on the paths that occur in this tree. -/

/-- The files of the example tree. -/
def demoFiles : Files := fun p =>
  if p = "/w/src/a.css" then some ".primary \x7b color: red \x7d"
  else if p = "/w/src/a.css.flow" then some "stale"
  else if p = "/w/src/my.flowers/b.css" then some ".disabled \x7b color: grey \x7d"
  else if p = "/w/src/my.flowers/b.css.flow" then some "stale"
  else if p = "/w/src/legacy.css.flow" then some "stale"
  else none

/-- What `globby.sync` lists in the example tree for the patterns used below. -/
def demoGlob (files : Files) (pattern : String) : List String :=
  let listing :=
    if pattern = "src/**/*.css" then ["src/a.css", "src/my.flowers/b.css"]
    else if pattern = "src/**/*.css.flow" then
      ["src/a.css.flow", "src/legacy.css.flow", "src/my.flowers/b.css.flow"]
    else []
  listing.filter (fun p => (files ("/w/" ++ p)).isSome)

/-- Collaborators over the example tree: colours off, every write succeeds, the compiler
knows the two sources, the converter wraps the text of the file it is given. -/
def demoEnv : Env where
  cwd := "/w"
  resolve p := if jsStartsWith p "/" then p else "/w/" ++ p
  join parts := "/".intercalate parts
  relative dir p :=
    if jsStartsWith p (dir ++ "/") then ⟨p.data.drop (dir.data.length + 1)⟩ else ".." ++ p
  glob := demoGlob
  renderSass file :=
    if file = "/w/src/a.css" then .ok ".primary \x7b color: red \x7d"
    else if file = "/w/src/my.flowers/b.css" then .ok ".disabled \x7b color: grey \x7d"
    else .error ("Error: File to read not found or unreadable: " ++ file)
  tempPath n := "/tmp/" ++ String.mk (List.replicate n 'x') ++ ".css"
  convert files file :=
    match files file with
    | none => .error ("Error: ENOENT: no such file or directory, open " ++ file)
    | some css => .ok ("// @flow\n" ++ css)
  writeError _ := none
  green s := s
  red s := s

/-- The example tree before the tool runs. -/
def demoWorld : World where
  files := demoFiles
  stdout := []
  stderr := []
  temps := 0
  helpShown := 0
  watches := []
  writes := []
  detectCalls := []

/-! ## Dangling detection (C1) -/

/-- C1, evaluated on the example tree: both sources are live and have their artifact on
disk, `src/legacy.css.flow` is the only artifact without a source; the suffix-stripped
set difference is that one artifact, yet `detectDanlingFlowFiles` reports two: it also
reports `src/my.flowers/b.css.flow`, because `replace('.flow', '')` removes the first
`.flow` of the path (inside `my.flowers`) and not the trailing one. -/
theorem detectDanlingFlowFiles_reports_live_artifact :
    danglingSet (demoEnv.glob demoWorld.files ("src/**/*.css" ++ ".flow"))
        ["src/a.css", "src/my.flowers/b.css"] = ["src/legacy.css.flow"]
    ∧ (detectDanlingFlowFiles demoEnv "src/**/*.css"
          ["src/a.css", "src/my.flowers/b.css"] demoWorld).stderr
        = ["Detected 2 dangling .flow file(s), that can be removed:",
           "- src/legacy.css.flow", "- src/my.flowers/b.css.flow"] := by
  constructor <;> decide

/-! ## One invocation of the file pipeline, run alone (C3, C4, C8, C10) -/

/-- C3: whichever step of `handleFile` fails (compiler render, ephemeral-file write,
converter, artifact write) with reason `reason`, the invocation ends with its promise
fulfilled, has added exactly the line `'[Error] ' + reason` to standard error and nothing
to standard output, whatever the value of `silent`. -/
theorem handleFile_failure_contained (env : Env) (silent : Bool) (scssFilePath : String)
    (w : World) (reason cssContents flowTypings : String)
    (h : env.renderSass (env.resolve scssFilePath) = .error reason
      ∨ (env.renderSass (env.resolve scssFilePath) = .ok cssContents
          ∧ env.writeError (env.tempPath w.temps) = some reason)
      ∨ (env.renderSass (env.resolve scssFilePath) = .ok cssContents
          ∧ env.writeError (env.tempPath w.temps) = none
          ∧ env.convert (w.files.write (env.tempPath w.temps) cssContents)
              (env.tempPath w.temps) = .error reason)
      ∨ (env.renderSass (env.resolve scssFilePath) = .ok cssContents
          ∧ env.writeError (env.tempPath w.temps) = none
          ∧ env.convert (w.files.write (env.tempPath w.temps) cssContents)
              (env.tempPath w.temps) = .ok flowTypings
          ∧ env.writeError (env.join [env.resolve scssFilePath ++ ".flow"]) = some reason)) :
    (handleFile env silent scssFilePath w).2 = .resolved
    ∧ (handleFile env silent scssFilePath w).1.stderr
        = w.stderr ++ [env.red ("[Error] " ++ reason)]
    ∧ (handleFile env silent scssFilePath w).1.stdout = w.stdout := by
  rcases h with h | ⟨h1, h2⟩ | ⟨h1, h2, h3⟩ | ⟨h1, h2, h3, h4⟩
  · simp [handleFile, resumeN, handleFileStart, resume, catchBlock, h]
  · simp [handleFile, resumeN, handleFileStart, resume, catchBlock, writeFile, h1, h2]
  · simp [handleFile, resumeN, handleFileStart, resume, catchBlock, writeFile, h1, h2, h3]
  · simp [handleFile, resumeN, handleFileStart, resume, catchBlock, writeFile, h1, h2, h3, h4]

/-- C3 at work: the compiler fails for a source that does not exist, with `silent` set. -/
theorem handleFile_failure_contained_witness :
    (handleFile demoEnv true "src/missing.css" demoWorld).2 = .resolved
    ∧ (handleFile demoEnv true "src/missing.css" demoWorld).1.stderr
        = demoWorld.stderr ++ [demoEnv.red ("[Error] "
            ++ "Error: File to read not found or unreadable: /w/src/missing.css")]
    ∧ (handleFile demoEnv true "src/missing.css" demoWorld).1.stdout = demoWorld.stdout :=
  handleFile_failure_contained demoEnv true "src/missing.css" demoWorld
    "Error: File to read not found or unreadable: /w/src/missing.css" "" ""
    (Or.inl rfl)

/-- C4: when every step succeeds, the file at `path.join(path.resolve(S) + '.flow')` holds,
after the invocation, the converter's output for the ephemeral file that holds the
compiler's CSS for `S`, whatever was at that path before; and when the converter's
output is a function of the CSS text alone, a second invocation leaves the same content. -/
theorem handleFile_writes_artifact (env : Env) (silent : Bool) (scssFilePath : String)
    (w : World) (cssContents flowTypings : String)
    (hrender : env.renderSass (env.resolve scssFilePath) = .ok cssContents)
    (htemp : env.writeError (env.tempPath w.temps) = none)
    (hconvert : env.convert (w.files.write (env.tempPath w.temps) cssContents)
        (env.tempPath w.temps) = .ok flowTypings)
    (hflow : env.writeError (env.join [env.resolve scssFilePath ++ ".flow"]) = none) :
    (handleFile env silent scssFilePath w).2 = .resolved
    ∧ (handleFile env silent scssFilePath w).1.files
        (env.join [env.resolve scssFilePath ++ ".flow"]) = some flowTypings
    ∧ ((∀ files file, files file = some cssContents → env.convert files file = .ok flowTypings) →
        env.writeError (env.tempPath (w.temps + 1)) = none →
        (handleFile env silent scssFilePath (handleFile env silent scssFilePath w).1).1.files
          (env.join [env.resolve scssFilePath ++ ".flow"]) = some flowTypings) := by
  have key : ∀ w0 : World, env.writeError (env.tempPath w0.temps) = none →
      env.convert (w0.files.write (env.tempPath w0.temps) cssContents)
        (env.tempPath w0.temps) = .ok flowTypings →
      (handleFile env silent scssFilePath w0).2 = .resolved
      ∧ (handleFile env silent scssFilePath w0).1.files
          (env.join [env.resolve scssFilePath ++ ".flow"]) = some flowTypings
      ∧ (handleFile env silent scssFilePath w0).1.temps = w0.temps + 1 := by
    intro w0 h2 h3
    cases silent <;>
      simp [handleFile, resumeN, handleFileStart, resume, writeFile, reportWrote, hrender, h2,
        h3, hflow, Files.write]
  obtain ⟨k1, k2, k3⟩ := key w htemp hconvert
  refine ⟨k1, k2, fun hdet htemp2 => ?_⟩
  refine (key _ (by rw [k3]; exact htemp2) (hdet _ _ ?_)).2.1
  simp [Files.write]

/-- C4 at work: `src/a.css` of the example tree; the stale artifact is replaced. -/
theorem handleFile_writes_artifact_witness :
    demoWorld.files "/w/src/a.css.flow" = some "stale"
    ∧ (handleFile demoEnv false "src/a.css" demoWorld).1.files "/w/src/a.css.flow"
        = some "// @flow\n.primary \x7b color: red \x7d" :=
  ⟨rfl, (handleFile_writes_artifact demoEnv false "src/a.css" demoWorld
    ".primary \x7b color: red \x7d" "// @flow\n.primary \x7b color: red \x7d"
    rfl rfl rfl rfl).2.1⟩

/-- C8: when every step succeeds, the invocation adds to standard output exactly the line
`'[Wrote] ' + p` if `silent` is unset, where `r` is the artifact path relative to the
working directory and `p` is `r` if `r` starts with `../` and `'./' + r` otherwise, and
adds nothing if `silent` is set; standard error is unchanged. -/
theorem handleFile_reports_wrote (env : Env) (silent : Bool) (scssFilePath : String)
    (w : World) (cssContents flowTypings : String)
    (hrender : env.renderSass (env.resolve scssFilePath) = .ok cssContents)
    (htemp : env.writeError (env.tempPath w.temps) = none)
    (hconvert : env.convert (w.files.write (env.tempPath w.temps) cssContents)
        (env.tempPath w.temps) = .ok flowTypings)
    (hflow : env.writeError (env.join [env.resolve scssFilePath ++ ".flow"]) = none) :
    (handleFile env silent scssFilePath w).1.stdout
        = w.stdout ++
          (if silent then []
           else [env.green ("[Wrote] " ++
              (if jsStartsWith
                    (env.relative env.cwd (env.join [env.resolve scssFilePath ++ ".flow"]))
                    "../"
               then env.relative env.cwd (env.join [env.resolve scssFilePath ++ ".flow"])
               else "./" ++
                 env.relative env.cwd (env.join [env.resolve scssFilePath ++ ".flow"])))])
    ∧ (handleFile env silent scssFilePath w).1.stderr = w.stderr := by
  cases silent
  · by_cases hrel : jsStartsWith
        (env.relative env.cwd (env.join [env.resolve scssFilePath ++ ".flow"])) "../" = true
    · simp [handleFile, resumeN, handleFileStart, resume, writeFile, reportWrote, hrender,
        htemp, hconvert, hflow, hrel]
    · simp [handleFile, resumeN, handleFileStart, resume, writeFile, reportWrote, hrender,
        htemp, hconvert, hflow, hrel]
  · simp [handleFile, resumeN, handleFileStart, resume, writeFile, reportWrote, hrender,
      htemp, hconvert, hflow]

/-- C8 at work: `src/a.css` of the example tree is reported as `./src/a.css.flow`. -/
theorem handleFile_reports_wrote_witness :
    (handleFile demoEnv false "src/a.css" demoWorld).1.stdout
      = [] ++ [demoEnv.green ("[Wrote] " ++ "./src/a.css.flow")] :=
  (handleFile_reports_wrote demoEnv false "src/a.css" demoWorld
    ".primary \x7b color: red \x7d" "// @flow\n.primary \x7b color: red \x7d"
    rfl rfl rfl rfl).1

/-- C10, counterexample: in the example tree the ephemeral file `temp.path` names does not
exist before `handleFile('src/a.css')`, and once that invocation has ended (promise
fulfilled) the file exists and holds the rendered CSS. -/
theorem tempCssFile_outlives_handleFile :
    demoWorld.files (demoEnv.tempPath demoWorld.temps) = none
    ∧ (handleFile demoEnv false "src/a.css" demoWorld).2 = .resolved
    ∧ (handleFile demoEnv false "src/a.css" demoWorld).1.files
        (demoEnv.tempPath demoWorld.temps) = some ".primary \x7b color: red \x7d" := by
  decide

/-- C10, amended: `handleFile` never deletes the ephemeral file. Once the compiler has
rendered the source and the ephemeral file has been written, then whatever the later
steps do (success, converter failure, artifact-write failure), the file still exists
after the invocation has ended, and still holds the rendered CSS unless the artifact
path is the very same path. -/
theorem handleFile_keeps_tempCssFile (env : Env) (silent : Bool) (scssFilePath : String)
    (w : World) (cssContents : String)
    (hrender : env.renderSass (env.resolve scssFilePath) = .ok cssContents)
    (htemp : env.writeError (env.tempPath w.temps) = none) :
    (handleFile env silent scssFilePath w).2 = .resolved
    ∧ (handleFile env silent scssFilePath w).1.files (env.tempPath w.temps) ≠ none
    ∧ (env.tempPath w.temps ≠ env.join [env.resolve scssFilePath ++ ".flow"] →
        (handleFile env silent scssFilePath w).1.files (env.tempPath w.temps)
          = some cssContents) := by
  cases hconvert : env.convert (w.files.write (env.tempPath w.temps) cssContents)
      (env.tempPath w.temps) with
  | error reason =>
    simp [handleFile, resumeN, handleFileStart, resume, writeFile, catchBlock, hrender,
      htemp, hconvert, Files.write]
  | ok flowTypings =>
    cases hflow : env.writeError (env.join [env.resolve scssFilePath ++ ".flow"]) with
    | some reason =>
      simp [handleFile, resumeN, handleFileStart, resume, writeFile, catchBlock, hrender,
        htemp, hconvert, hflow, Files.write]
    | none =>
      cases silent <;>
        simp [handleFile, resumeN, handleFileStart, resume, writeFile, reportWrote, hrender,
          htemp, hconvert, hflow, Files.write] <;>
        split <;> simp_all

/-- C10, amended, at work: the converter fails after the ephemeral file was written
(the example converter is replaced by one that always fails). -/
theorem handleFile_keeps_tempCssFile_witness :
    (handleFile { demoEnv with convert := fun _ _ => .error "Error: boom" } false
        "src/a.css" demoWorld).1.files "/tmp/.css" ≠ none :=
  (handleFile_keeps_tempCssFile { demoEnv with convert := fun _ _ => .error "Error: boom" }
    false "src/a.css" demoWorld ".primary \x7b color: red \x7d" rfl rfl).2.1

/-! ## The synchronous run of main (C5, C6, C7, C9) -/

/-- C6: with no input path (`cli.input` absent or empty), whatever the flags, `main` calls
`showHelp` once and does nothing else: it starts no `handleFile` invocation, and the file
system, both console streams, the watch subscriptions and the record of dangling
detections are unchanged. -/
theorem main_no_input (env : Env) (cli : Cli) (w : World)
    (h : cli.input = none ∨ cli.input = some []) :
    main env cli w = ({ w with helpShown := w.helpShown + 1 }, []) := by
  rcases h with h | h <;> simp [main, h]

/-- C6 at work: an empty input list with `--watch --silent --extension scss`. -/
theorem main_no_input_witness :
    main demoEnv ⟨some [], ⟨true, true, some "scss"⟩⟩ demoWorld
      = ({ demoWorld with helpShown := demoWorld.helpShown + 1 }, []) :=
  main_no_input demoEnv ⟨some [], ⟨true, true, some "scss"⟩⟩ demoWorld (Or.inr rfl)

/-- C7: with two or more paths and `watch` set, `main` writes one line to standard error
and does nothing else: no subscription is added, no `handleFile` invocation is started,
no dangling detection runs, no file is written. -/
theorem main_watch_rejects_file_list (env : Env) (cli : Cli) (w : World)
    (input : List String) (hinput : cli.input = some input) (hlen : 2 ≤ input.length)
    (hwatch : cli.flags.watch = true) :
    main env cli w
      = ({ w with stderr := w.stderr
            ++ [env.red ("Watch mode requires a single path... Not "
                  ++ ",".intercalate input)] }, []) := by
  have h0 : input.length ≠ 0 := by omega
  have h1 : ¬ input.length = 1 := by omega
  have h2 : input.length > 1 := by omega
  simp [main, hinput, hwatch, h0, filePath, h1, truthy, filesList, h2, jsArrayString]

/-- C7 at work: `--watch src/a.css src/my.flowers/b.css`. -/
theorem main_watch_rejects_file_list_witness :
    main demoEnv ⟨some ["src/a.css", "src/my.flowers/b.css"], ⟨true, false, none⟩⟩ demoWorld
      = ({ demoWorld with stderr := demoWorld.stderr
            ++ [demoEnv.red ("Watch mode requires a single path... Not "
                  ++ ",".intercalate ["src/a.css", "src/my.flowers/b.css"])] }, []) :=
  main_watch_rejects_file_list demoEnv _ demoWorld ["src/a.css", "src/my.flowers/b.css"]
    rfl (by decide) rfl

/-- C5, counterexample: with the single root `src` and `--extension ''` the files handed to
the pipeline are the expansion of `src/**/*.css` (the two sources of the example tree),
not the expansion of the pattern built from the given extension value, `src/**/*.`,
which matches nothing. -/
theorem main_empty_extension_uses_css :
    (main demoEnv ⟨some ["src"], ⟨false, false, some ""⟩⟩ demoWorld).2
        = ["src/a.css", "src/my.flowers/b.css"].map (handleFileStart demoEnv)
    ∧ (demoEnv.glob demoWorld.files (demoEnv.join ["src", "**/*." ++ ""])).map
          (handleFileStart demoEnv) = [] := by
  decide

/-- C5, amended: in batch mode (`watch` unset), with two or more paths the `handleFile`
invocations started are those of the given paths, in order, with no glob expansion; with
exactly one non-empty path `root` they are those of the glob expansion of
`path.join(root, '**/*.' + extension)`, where `extension` is the `--extension` value when
that is a non-empty string and `css` when it is unspecified or empty. -/
theorem main_batch_files (env : Env) (cli : Cli) (w : World) (input : List String)
    (hinput : cli.input = some input) (hwatch : cli.flags.watch = false) :
    (2 ≤ input.length → (main env cli w).2 = input.map (handleFileStart env))
    ∧ (∀ root, input = [root] → root ≠ "" →
        (main env cli w).2
          = (env.glob w.files
              (env.join [root, "**/*." ++
                (match cli.flags.extension with
                 | some e => if e = "" then "css" else e
                 | none => "css")])).map (handleFileStart env)) := by
  constructor
  · intro hlen
    have h0 : input.length ≠ 0 := by omega
    have h2 : input.length > 1 := by omega
    simp [main, hinput, hwatch, h0, cssFiles, filesList, h2]
  · intro root hroot hne
    subst hroot
    have hext : extension cli = (match cli.flags.extension with
        | some e => if e = "" then "css" else e
        | none => "css") := by
      unfold extension
      cases cli.flags.extension with
      | none => simp [truthy]
      | some e => by_cases he : e = "" <;> simp [truthy, jsString, he]
    simp [main, hinput, hwatch, cssFiles, filesList, filesPattern, filePath, truthy, hne,
      jsString, hext]

/-- C5, amended, at work: the single root `src` with no `--extension`. -/
theorem main_batch_files_witness :
    (main demoEnv ⟨some ["src"], ⟨false, false, none⟩⟩ demoWorld).2
      = (demoEnv.glob demoWorld.files (demoEnv.join ["src", "**/*." ++ "css"])).map
          (handleFileStart demoEnv) :=
  (main_batch_files demoEnv ⟨some ["src"], ⟨false, false, none⟩⟩ demoWorld ["src"] rfl rfl).2
    "src" rfl (by decide)

/-! ## Interleaved invocations: what one continuation can change -/

/-- The success report touches no file. -/
@[simp] theorem reportWrote_files (env : Env) (silent : Bool) (f : String) (w : World) :
    (reportWrote env silent f w).files = w.files := by
  unfold reportWrote; split <;> rfl

/-- The success report allocates no ephemeral name. -/
@[simp] theorem reportWrote_temps (env : Env) (silent : Bool) (f : String) (w : World) :
    (reportWrote env silent f w).temps = w.temps := by
  unfold reportWrote; split <;> rfl

/-- The success report writes no file. -/
@[simp] theorem reportWrote_writes (env : Env) (silent : Bool) (f : String) (w : World) :
    (reportWrote env silent f w).writes = w.writes := by
  unfold reportWrote; split <;> rfl

/-- A continuation never forgets an allocated ephemeral name. -/
theorem resume_temps_le (env : Env) (silent : Bool) (w : World) (st : Stage) :
    w.temps ≤ (resume env silent w st).1.temps := by
  rcases st with a | ⟨a, tmp, c⟩ | ⟨a, tmp⟩ | ⟨a, f, t⟩ | _ | r
  · cases h : env.renderSass a <;> simp [resume, catchBlock, h]
  · cases h : env.writeError tmp <;> simp [resume, writeFile, catchBlock, h]
  · cases h : env.convert w.files tmp <;> simp [resume, catchBlock, h]
  · cases h : env.writeError f <;> simp [resume, writeFile, catchBlock, h]
  · simp [resume]
  · simp [resume]

/-- A continuation only adds to the record of writes. -/
theorem resume_writes_mono (env : Env) (silent : Bool) (w : World) (st : Stage)
    (x : String × String) (hx : x ∈ w.writes) : x ∈ (resume env silent w st).1.writes := by
  rcases st with a | ⟨a, tmp, c⟩ | ⟨a, tmp⟩ | ⟨a, f, t⟩ | _ | r
  · cases h : env.renderSass a <;> simp [resume, catchBlock, h, hx]
  · cases h : env.writeError tmp <;> simp [resume, writeFile, catchBlock, h, hx]
  · cases h : env.convert w.files tmp <;> simp [resume, catchBlock, h, hx]
  · cases h : env.writeError f <;> simp [resume, writeFile, catchBlock, h, hx]
  · simp [resume, hx]
  · simp [resume, hx]

/-- A continuation changes no file but the one its stage is about to write. -/
theorem resume_files_frame (env : Env) (silent : Bool) (w : World) (st : Stage) (q : String)
    (htemp : st.tempCssFile ≠ some q)
    (hflow : ∀ a f t, st = .awaitFlowWrite a f t → f ≠ q) :
    (resume env silent w st).1.files q = w.files q := by
  rcases st with a | ⟨a, tmp, c⟩ | ⟨a, tmp⟩ | ⟨a, f, t⟩ | _ | r
  · cases h : env.renderSass a <;> simp [resume, catchBlock, h]
  · have hq : q ≠ tmp := fun h => htemp (by simp [Stage.tempCssFile, h])
    cases h : env.writeError tmp <;> simp [resume, writeFile, catchBlock, h, Files.write, hq]
  · cases h : env.convert w.files tmp <;> simp [resume, catchBlock, h]
  · have hq : q ≠ f := fun h => hflow a f t rfl h.symm
    cases h : env.writeError f <;> simp [resume, writeFile, catchBlock, h, Files.write, hq]
  · simp [resume]
  · simp [resume]

/-- The ephemeral file of the next stage is that of the stage before or a fresh name. -/
theorem resume_tempCssFile (env : Env) (silent : Bool) (w : World) (st : Stage) (p : String)
    (hp : (resume env silent w st).2.tempCssFile = some p) :
    st.tempCssFile = some p
      ∨ (p = env.tempPath w.temps ∧ (resume env silent w st).1.temps = w.temps + 1) := by
  rcases st with a | ⟨a, tmp, c⟩ | ⟨a, tmp⟩ | ⟨a, f, t⟩ | _ | r
  · cases h : env.renderSass a <;> simp_all [resume, catchBlock, Stage.tempCssFile]
  · cases h : env.writeError tmp <;>
      simp_all [resume, writeFile, catchBlock, Stage.tempCssFile]
  · cases h : env.convert w.files tmp <;> simp_all [resume, catchBlock, Stage.tempCssFile]
  · cases h : env.writeError f <;> simp_all [resume, writeFile, catchBlock, Stage.tempCssFile]
  · simp_all [resume, Stage.tempCssFile]
  · simp_all [resume, Stage.tempCssFile]

/-- A pending artifact write is one that `handleFile` has just set up, to a `.flow` path. -/
theorem resume_flowNamed (env : Env) (silent : Bool) (w : World) (st : Stage)
    (a f t : String) (hf : (resume env silent w st).2 = .awaitFlowWrite a f t) :
    ∃ x, f = env.join [x ++ ".flow"] := by
  rcases st with a0 | ⟨a0, tmp, c⟩ | ⟨a0, tmp⟩ | ⟨a0, f0, t0⟩ | _ | r
  · cases h : env.renderSass a0 <;> simp_all [resume, catchBlock]
  · cases h : env.writeError tmp <;> simp_all [resume, writeFile, catchBlock]
  · cases h : env.convert w.files tmp <;> simp_all [resume, catchBlock]
    exact ⟨_, hf.2.1.symm⟩
  · cases h : env.writeError f0 <;> simp_all [resume, writeFile, catchBlock]
  · simp_all [resume]
  · simp_all [resume]

/-- A continuation deletes no file. -/
theorem resume_files_some (env : Env) (silent : Bool) (w : World) (st : Stage) (q : String)
    (hq : w.files q ≠ none) : (resume env silent w st).1.files q ≠ none := by
  rcases st with a | ⟨a, tmp, c⟩ | ⟨a, tmp⟩ | ⟨a, f, t⟩ | _ | r
  · cases h : env.renderSass a <;> simp [resume, catchBlock, h, hq]
  · cases h : env.writeError tmp <;> simp [resume, writeFile, catchBlock, h, hq, Files.write]
    split <;> simp [hq]
  · cases h : env.convert w.files tmp <;> simp [resume, catchBlock, h, hq]
  · cases h : env.writeError f <;> simp [resume, writeFile, catchBlock, h, hq, Files.write]
    split <;> simp [hq]
  · simp [resume, hq]
  · simp [resume, hq]

/-- A continuation of the on-track invocation keeps it on track and uses up one rank. -/
theorem resume_onTrack (env : Env) (silent : Bool) (w : World) (st : Stage)
    (file css typings : String)
    (hrender : env.renderSass file = .ok css)
    (htemp : ∀ n, env.writeError (env.tempPath n) = none)
    (hconvert : ∀ files n, files (env.tempPath n) = some css →
      env.convert files (env.tempPath n) = .ok typings)
    (hflow : env.writeError (env.join [file ++ ".flow"]) = none)
    (hnamed : ∀ p, st.tempCssFile = some p → ∃ k, p = env.tempPath k)
    (h : OnTrack env file css typings w st) :
    OnTrack env file css typings (resume env silent w st).1 (resume env silent w st).2
    ∧ (resume env silent w st).2.rank = st.rank - 1 := by
  rcases st with a | ⟨a, tmp, c⟩ | ⟨a, tmp⟩ | ⟨a, f, t⟩ | _ | r
  · simp only [OnTrack] at h
    subst h
    simp [resume, hrender, OnTrack, Stage.rank]
  · obtain ⟨k, hk⟩ := hnamed tmp rfl
    simp only [OnTrack] at h
    obtain ⟨h1, h2⟩ := h
    subst h1 h2 hk
    simp [resume, writeFile, htemp, OnTrack, Stage.rank, Files.write]
  · obtain ⟨k, hk⟩ := hnamed tmp rfl
    simp only [OnTrack] at h
    obtain ⟨h1, h2⟩ := h
    subst h1 hk
    simp [resume, hconvert _ _ h2, OnTrack, Stage.rank]
  · simp only [OnTrack] at h
    obtain ⟨h1, h2⟩ := h
    subst h1 h2
    simp [resume, writeFile, hflow, OnTrack, Stage.rank, Files.write]
  · simpa [resume, OnTrack, Stage.rank] using h
  · simp [OnTrack] at h

/-- A continuation of another invocation leaves the on-track invocation on track. -/
theorem resume_other_onTrack (env : Env) (silent : Bool) (w : World) (stj sti : Stage)
    (file css typings : String)
    (hdisj : ∀ n x, env.tempPath n ≠ env.join [x ++ ".flow"])
    (hapart : ∀ p, stj.tempCssFile = some p → sti.tempCssFile ≠ some p)
    (hflowNamed : ∀ a f t, stj = .awaitFlowWrite a f t → ∃ x, f = env.join [x ++ ".flow"])
    (hnamed : ∀ p, sti.tempCssFile = some p → ∃ k, p = env.tempPath k)
    (h : OnTrack env file css typings w sti) :
    OnTrack env file css typings (resume env silent w stj).1 sti := by
  rcases sti with a | ⟨a, tmp, c⟩ | ⟨a, tmp⟩ | ⟨a, f, t⟩ | _ | r
  · exact h
  · exact h
  · obtain ⟨k, hk⟩ := hnamed tmp rfl
    simp only [OnTrack] at h ⊢
    refine ⟨h.1, ?_⟩
    rw [resume_files_frame env silent w stj tmp]
    · exact h.2
    · intro hj
      exact hapart tmp hj rfl
    · intro a0 f0 t0 hst hf
      obtain ⟨x, hx⟩ := hflowNamed a0 f0 t0 hst
      exact hdisj k x (by rw [← hk, ← hx, hf])
  · exact h
  · simp only [OnTrack] at h ⊢
    exact ⟨resume_writes_mono env silent w stj _ h.1, resume_files_some env silent w stj _ h.2⟩
  · exact h

/-- The pending invocations after the `m`-th has been resumed. -/
theorem resumeAt_getElem? (env : Env) (silent : Bool) (m : Nat) (s : World × List Stage)
    (stm : Stage) (hm : s.2[m]? = some stm) (j : Nat) :
    (resumeAt env silent m s).2[j]?
      = if m = j then some (resume env silent s.1 stm).2 else s.2[j]? := by
  have hlt : m < s.2.length := by
    rcases Nat.lt_or_ge m s.2.length with h | h
    · exact h
    · rw [List.getElem?_eq_none h] at hm; cases hm
  simp only [resumeAt, hm, List.getElem?_set, hlt, if_true]

/-- The world after the `m`-th invocation has been resumed. -/
theorem resumeAt_world (env : Env) (silent : Bool) (m : Nat) (s : World × List Stage)
    (stm : Stage) (hm : s.2[m]? = some stm) :
    (resumeAt env silent m s).1 = (resume env silent s.1 stm).1 := by
  simp only [resumeAt, hm]

/-- One scheduled continuation, of whichever invocation, preserves the invariant; the
on-track invocation loses one rank when it is the one resumed and none otherwise. -/
theorem isolated_resumeAt (env : Env) (silent : Bool) (i : Nat) (file css typings : String)
    (hrender : env.renderSass file = .ok css)
    (htemp : ∀ n, env.writeError (env.tempPath n) = none)
    (hconvert : ∀ files n, files (env.tempPath n) = some css →
      env.convert files (env.tempPath n) = .ok typings)
    (hflow : env.writeError (env.join [file ++ ".flow"]) = none)
    (hinj : Function.Injective env.tempPath)
    (hdisj : ∀ n x, env.tempPath n ≠ env.join [x ++ ".flow"])
    (m : Nat) (s : World × List Stage) (h : Isolated env i file css typings s) :
    Isolated env i file css typings (resumeAt env silent m s)
    ∧ ∀ sti, s.2[i]? = some sti →
        ∃ sti1, (resumeAt env silent m s).2[i]? = some sti1
          ∧ sti1.rank = if m = i then sti.rank - 1 else sti.rank := by
  cases hm : s.2[m]? with
  | none =>
    have hs : resumeAt env silent m s = s := by simp only [resumeAt, hm]
    rw [hs]
    refine ⟨h, fun sti hi => ⟨sti, hi, ?_⟩⟩
    have hne : m ≠ i := by
      intro hmi
      rw [hmi, hi] at hm
      cases hm
    simp [hne]
  | some stm =>
    have hget := resumeAt_getElem? env silent m s stm hm
    have hworld := resumeAt_world env silent m s stm hm
    have htemps : s.1.temps ≤ (resumeAt env silent m s).1.temps := by
      rw [hworld]; exact resume_temps_le env silent s.1 stm
    obtain ⟨sti, hi, hT⟩ := h.onTrack
    have hnamedi : ∀ p, sti.tempCssFile = some p → ∃ k, p = env.tempPath k := by
      intro p hp
      obtain ⟨k, _, hk⟩ := h.named i sti p hi hp
      exact ⟨k, hk⟩
    have hfresh : ∀ (j : Nat) (st : Stage), s.2[j]? = some st →
        st.tempCssFile ≠ some (env.tempPath s.1.temps) := by
      intro j st hj hp
      obtain ⟨k, hk, hpk⟩ := h.named j st _ hj hp
      have := hinj hpk
      omega
    refine ⟨⟨?_, ?_, ?_, ?_⟩, ?_⟩
    · by_cases hmi : m = i
      · subst hmi
        have hEq : sti = stm := Option.some.inj (hi.symm.trans hm)
        subst hEq
        refine ⟨(resume env silent s.1 sti).2, by rw [hget]; simp, ?_⟩
        rw [hworld]
        exact (resume_onTrack env silent s.1 sti file css typings hrender htemp hconvert hflow
          hnamedi hT).1
      · refine ⟨sti, by rw [hget]; simp [hmi, hi], ?_⟩
        rw [hworld]
        exact resume_other_onTrack env silent s.1 stm sti file css typings hdisj
          (fun p hp => h.apart m stm sti p hmi hm hi hp)
          (fun a f t hst => h.flowNamed m a f t (by rw [hm, hst]))
          hnamedi hT
    · intro j st p hj hp
      rw [hget] at hj
      by_cases hmj : m = j
      · simp only [hmj, if_true, Option.some.injEq] at hj
        subst hj
        rcases resume_tempCssFile env silent s.1 stm p hp with h1 | ⟨h1, h2⟩
        · obtain ⟨k, hk, hpk⟩ := h.named m stm p hm h1
          exact ⟨k, by omega, hpk⟩
        · exact ⟨s.1.temps, by rw [hworld, h2]; omega, h1⟩
      · simp only [hmj, if_false] at hj
        obtain ⟨k, hk, hpk⟩ := h.named j st p hj hp
        exact ⟨k, by omega, hpk⟩
    · intro j st sti1 p hji hj hi1 hp hp1
      rw [hget] at hj hi1
      by_cases hmj : m = j
      · have hmi : m ≠ i := fun hmi => hji (hmj.symm.trans hmi)
        simp only [hmj, if_true, Option.some.injEq] at hj
        simp only [hmi, if_false] at hi1
        rw [hi] at hi1
        cases hi1
        subst hj
        rcases resume_tempCssFile env silent s.1 stm p hp with h1 | ⟨h1, _⟩
        · exact h.apart m stm sti p hmi hm hi h1 hp1
        · exact hfresh i sti hi (h1 ▸ hp1)
      · simp only [hmj, if_false] at hj
        by_cases hmi : m = i
        · simp only [hmi, if_true, Option.some.injEq] at hi1
          subst hmi
          have hEq : sti = stm := Option.some.inj (hi.symm.trans hm)
          subst hEq
          subst hi1
          rcases resume_tempCssFile env silent s.1 sti p hp1 with h1 | ⟨h1, _⟩
          · exact h.apart j st sti p hji hj hi hp h1
          · exact hfresh j st hj (h1 ▸ hp)
        · simp only [hmi, if_false] at hi1
          exact h.apart j st sti1 p hji hj hi1 hp hp1
    · intro j a f t hj
      rw [hget] at hj
      by_cases hmj : m = j
      · simp only [hmj, if_true, Option.some.injEq] at hj
        exact resume_flowNamed env silent s.1 stm a f t hj
      · simp only [hmj, if_false] at hj
        exact h.flowNamed j a f t hj
    · intro sti0 hi0
      rw [hi] at hi0
      cases hi0
      by_cases hmi : m = i
      · subst hmi
        have hEq : sti = stm := Option.some.inj (hi.symm.trans hm)
        subst hEq
        refine ⟨(resume env silent s.1 sti).2, by rw [hget]; simp, ?_⟩
        simp only [if_true]
        exact (resume_onTrack env silent s.1 sti file css typings hrender htemp hconvert hflow
          hnamedi hT).2
      · exact ⟨sti, by rw [hget]; simp [hmi, hi], by simp [hmi]⟩

/-- Under any schedule that resumes the on-track invocation as often as its rank, that
invocation ends fulfilled with its artifact written. -/
theorem isolated_runSchedule (env : Env) (silent : Bool) (i : Nat) (file css typings : String)
    (hrender : env.renderSass file = .ok css)
    (htemp : ∀ n, env.writeError (env.tempPath n) = none)
    (hconvert : ∀ files n, files (env.tempPath n) = some css →
      env.convert files (env.tempPath n) = .ok typings)
    (hflow : env.writeError (env.join [file ++ ".flow"]) = none)
    (hinj : Function.Injective env.tempPath)
    (hdisj : ∀ n x, env.tempPath n ≠ env.join [x ++ ".flow"])
    (schedule : List Nat) :
    ∀ s : World × List Stage, Isolated env i file css typings s →
      (∀ sti, s.2[i]? = some sti → sti.rank ≤ schedule.count i) →
      (runSchedule env silent schedule s).2[i]? = some .resolved
      ∧ (env.join [file ++ ".flow"], typings) ∈ (runSchedule env silent schedule s).1.writes
      ∧ (runSchedule env silent schedule s).1.files (env.join [file ++ ".flow"]) ≠ none := by
  induction schedule with
  | nil =>
    intro s h hrank
    obtain ⟨sti, hi, hT⟩ := h.onTrack
    have h0 := hrank sti hi
    rcases sti with a | ⟨a, tmp, c⟩ | ⟨a, tmp⟩ | ⟨a, f, t⟩ | _ | r
    · simp [Stage.rank] at h0
    · simp [Stage.rank] at h0
    · simp [Stage.rank] at h0
    · simp [Stage.rank] at h0
    · exact ⟨hi, hT.1, hT.2⟩
    · simp [OnTrack] at hT
  | cons m rest ih =>
    intro s h hrank
    obtain ⟨h1, hstep⟩ := isolated_resumeAt env silent i file css typings hrender htemp
      hconvert hflow hinj hdisj m s h
    refine ih (resumeAt env silent m s) h1 ?_
    intro sti1 hi1
    obtain ⟨sti, hi, _⟩ := h.onTrack
    obtain ⟨sti2, hi2, hr⟩ := hstep sti hi
    have hEq : sti1 = sti2 := Option.some.inj (hi1.symm.trans hi2)
    subst hEq
    have h0 := hrank sti hi
    rw [List.count_cons] at h0
    by_cases hmi : m = i
    · simp only [hmi, if_true] at hr
      simp only [hmi, beq_self_eq_true, if_true] at h0
      omega
    · simp only [hmi, if_false] at hr
      have hb : (m == i) = false := by simpa using hmi
      simp only [hb] at h0
      simpa [hr] using h0

/-! ## Batch failure isolation (C2) -/

/-- In batch mode `main` starts one invocation per file of `cssFiles`, in order. -/
theorem main_started (env : Env) (cli : Cli) (w : World) (input : List String)
    (hinput : cli.input = some input) (hne : input ≠ []) (hwatch : cli.flags.watch = false) :
    (main env cli w).2 = (cssFiles env cli input w).map (handleFileStart env) := by
  have h0 : input.length ≠ 0 := fun h => hne (List.length_eq_zero.mp h)
  simp only [main, hinput, hwatch, h0]
  simp
  split <;> rfl

/-- C2: in a batch run, take the file at any position `i` of the batch list whose own
pipeline steps succeed. The pipeline is invoked on every file of the list, and whatever
the compiler, the converter and the writes do for the other files of the batch (the
compiler failing for a file `A` included) and in whatever order the event loop resumes
the invocations, as soon as the invocation for that file has had its four
continuations it has ended fulfilled and its declaration artifact has been written. -/
theorem batch_failure_isolation (env : Env) (cli : Cli) (w : World) (input : List String)
    (i : Nat) (file css typings : String) (schedule : List Nat)
    (hinput : cli.input = some input) (hne : input ≠ [])
    (hwatch : cli.flags.watch = false)
    (hfile : (cssFiles env cli input w)[i]? = some file)
    (hrender : env.renderSass (env.resolve file) = .ok css)
    (htemp : ∀ n, env.writeError (env.tempPath n) = none)
    (hconvert : ∀ files n, files (env.tempPath n) = some css →
      env.convert files (env.tempPath n) = .ok typings)
    (hflow : env.writeError (env.join [env.resolve file ++ ".flow"]) = none)
    (hinj : Function.Injective env.tempPath)
    (hdisj : ∀ n x, env.tempPath n ≠ env.join [x ++ ".flow"])
    (hfair : 4 ≤ schedule.count i) :
    (main env cli w).2 = (cssFiles env cli input w).map (handleFileStart env)
    ∧ (runSchedule env cli.flags.silent schedule (main env cli w)).2[i]? = some .resolved
    ∧ (env.join [env.resolve file ++ ".flow"], typings)
        ∈ (runSchedule env cli.flags.silent schedule (main env cli w)).1.writes
    ∧ (runSchedule env cli.flags.silent schedule (main env cli w)).1.files
        (env.join [env.resolve file ++ ".flow"]) ≠ none := by
  have hstarted := main_started env cli w input hinput hne hwatch
  have hget : ∀ (j : Nat) (st : Stage), (main env cli w).2[j]? = some st →
      ∃ f, st = .awaitRender f := by
    intro j st hj
    rw [hstarted, List.getElem?_map] at hj
    cases hf : (cssFiles env cli input w)[j]? with
    | none => rw [hf] at hj; cases hj
    | some f =>
      rw [hf] at hj
      exact ⟨env.resolve f, (Option.some.inj hj).symm⟩
  have hi : (main env cli w).2[i]? = some (.awaitRender (env.resolve file)) := by
    rw [hstarted, List.getElem?_map, hfile]
    rfl
  refine ⟨hstarted, ?_⟩
  refine isolated_runSchedule env cli.flags.silent i (env.resolve file) css typings hrender
    htemp hconvert hflow hinj hdisj schedule (main env cli w) ⟨?_, ?_, ?_, ?_⟩ ?_
  · exact ⟨_, hi, rfl⟩
  · intro j st p hj hp
    obtain ⟨f, rfl⟩ := hget j st hj
    cases hp
  · intro j st sti p _ hj _ hp
    obtain ⟨f, rfl⟩ := hget j st hj
    cases hp
  · intro j a f t hj
    obtain ⟨f0, hf0⟩ := hget j _ hj
    cases hf0
  · intro sti hsti
    have hEq : sti = .awaitRender (env.resolve file) := Option.some.inj (hsti.symm.trans hi)
    subst hEq
    exact hfair

/-- The example names for ephemeral files are pairwise distinct. -/
theorem demoEnv_tempPath_injective : Function.Injective demoEnv.tempPath := by
  intro n m h
  have hlen := congrArg String.length h
  simpa [demoEnv] using hlen

/-- No example name for an ephemeral file is an artifact path. -/
theorem demoEnv_tempPath_ne_flow (n : Nat) (x : String) :
    demoEnv.tempPath n ≠ demoEnv.join [x ++ ".flow"] := by
  intro h
  have hdata := congrArg (fun s : String => s.data.reverse.head?) h
  simp [demoEnv, String.intercalate, String.intercalate.go] at hdata

/-- C2 at work: the batch `src/missing.css src/a.css src/my.flowers/b.css` on the example
tree. The compiler fails for the first file; under the interleaving below the invocation
for `src/a.css` (position 1) ends fulfilled and its artifact is written. -/
theorem batch_failure_isolation_witness :
    demoEnv.renderSass (demoEnv.resolve "src/missing.css")
        = .error "Error: File to read not found or unreadable: /w/src/missing.css"
    ∧ (runSchedule demoEnv false [0, 1, 2, 1, 2, 0, 2, 1, 1, 2]
        (main demoEnv ⟨some ["src/missing.css", "src/a.css", "src/my.flowers/b.css"],
          ⟨false, false, none⟩⟩ demoWorld)).2[1]? = some .resolved
    ∧ ("/w/src/a.css.flow", "// @flow\n.primary \x7b color: red \x7d")
        ∈ (runSchedule demoEnv false [0, 1, 2, 1, 2, 0, 2, 1, 1, 2]
            (main demoEnv ⟨some ["src/missing.css", "src/a.css", "src/my.flowers/b.css"],
              ⟨false, false, none⟩⟩ demoWorld)).1.writes :=
  have h := batch_failure_isolation demoEnv
    ⟨some ["src/missing.css", "src/a.css", "src/my.flowers/b.css"], ⟨false, false, none⟩⟩
    demoWorld ["src/missing.css", "src/a.css", "src/my.flowers/b.css"] 1 "src/a.css"
    ".primary \x7b color: red \x7d" "// @flow\n.primary \x7b color: red \x7d"
    [0, 1, 2, 1, 2, 0, 2, 1, 1, 2] rfl (by decide) rfl rfl rfl (fun _ => rfl)
    (fun files n hcss => by simp only [demoEnv] at hcss ⊢; rw [hcss]; rfl) rfl
    demoEnv_tempPath_injective demoEnv_tempPath_ne_flow (by decide)
  ⟨rfl, h.2.1, h.2.2.1⟩

end CssModulesFlowTypes
